import Mathlib

/-!
Verification development for the `backstage-plugin-opensearch-ai-backend`
repository.  The TypeScript services are shallowly embedded as executable
Lean definitions: strings become `List Char`, JS numbers become `Rat`
(exact arithmetic; every concrete computation below stays well inside the
range where IEEE doubles are exact for the compared quantities), promises
become explicit outcome parameters (`Except`), and wall-clock time becomes
an explicit `Nat`/`Int` parameter.
-/

namespace OpensearchAI

/-! ## JS string and truthiness helpers -/

/-- Word characters for the JS regex `\b` assertion: `[A-Za-z0-9_]`. -/
def isWordChar (c : Char) : Bool :=
  c.isAlpha || c.isDigit || c = '_'

/-- Whitespace characters for the JS regex class `\s` (ASCII portion). -/
def isJsSpace (c : Char) : Bool :=
  c = ' ' || c = '\t' || c = '\n' || c = '\r' || c = '\x0b' || c = '\x0c'

/-- JS `String.prototype.toLowerCase` restricted to ASCII. -/
def jsLower (s : List Char) : List Char :=
  s.map Char.toLower

/-- JS truthiness of an optional string: `undefined`/`null` and the empty
string are falsy. -/
def truthyStr : Option (List Char) → Bool
  | none => false
  | some s => s ≠ []

/-- JS `a || b` over optional strings (first operand when truthy). -/
def jsOrStr (a b : Option (List Char)) : Option (List Char) :=
  if truthyStr a then a else b

/-- JS truthiness of an optional number (`undefined` and `0` are falsy). -/
def truthyNat : Option Nat → Bool
  | none => false
  | some n => n ≠ 0

/-- JS `String.prototype.includes` over character lists. -/
def strIncludes : List Char → List Char → Bool
  | _, [] => true
  | [], _ :: _ => false
  | c :: rest, needle => needle.isPrefixOf (c :: rest) || strIncludes rest needle

/-- JS `Array.prototype.join(sep)` over character lists. -/
def joinSep (sep : List Char) : List (List Char) → List Char
  | [] => []
  | [x] => x
  | x :: y :: rest => x ++ sep ++ joinSep sep (y :: rest)

/-! ## Regex engine

A small backtracking matcher faithful to the leftmost / greedy /
first-alternative semantics of JS `RegExp` for the operators actually used
by the redaction patterns: character classes, concatenation, alternation,
greedy `*` / `+` / `{n}` / `{n,}` / `?`, and the word-boundary assertion
`\b`.  `star` carries a fuel counter; every pattern in this repository
consumes at least one character per `star` iteration, so the generous fuel
supplied by the drivers below is never exhausted on the inputs considered.
-/

inductive Re where
  | eps : Re
  | cls (p : Char → Bool) : Re
  | seq (a b : Re) : Re
  | alt (a b : Re) : Re
  | star (a : Re) : Re
  | rep (n : Nat) (a : Re) : Re
  | boundary : Re

/-- Head word-character test used by `\b` (left side: previous character). -/
def isWordOpt : Option Char → Bool
  | none => false
  | some c => isWordChar c

/-- Head word-character test used by `\b` (right side: rest of the input). -/
def isWordHead : List Char → Bool
  | [] => false
  | c :: _ => isWordChar c

/-- Backtracking matcher in continuation style.  `prev` is the character
just before the current position (for `\b`); the continuation receives the
updated `prev` and the remaining input, and the first success in
JS backtracking order wins.  The recursion is structural on a fuel counter
(decremented on every step, so the definition reduces in the kernel); the
drivers below supply fuel well beyond the recursion depth needed for the
repository's patterns, so the fuel-exhaustion branch is never reached on
the inputs considered. -/
def reMatch :
    Nat → Re → Option Char → List Char → (Option Char → List Char → Option (List Char)) →
    Option (List Char)
  | 0, _, _, _, _ => none
  | f + 1, re, prev, s, k =>
      match re with
      | .eps => k prev s
      | .boundary =>
          if isWordOpt prev ≠ isWordHead s then k prev s else none
      | .cls p =>
          match s with
          | [] => none
          | c :: rest => if p c then k (some c) rest else none
      | .seq a b =>
          reMatch f a prev s fun p2 s2 => reMatch f b p2 s2 k
      | .alt a b =>
          (reMatch f a prev s k).orElse fun _ => reMatch f b prev s k
      | .rep 0 _ => k prev s
      | .rep (n + 1) a =>
          reMatch f a prev s fun p2 s2 => reMatch f (.rep n a) p2 s2 k
      | .star a =>
          (reMatch f a prev s fun p2 s2 => reMatch f (.star a) p2 s2 k).orElse
            fun _ => k prev s

/-- Attempt a match anchored at the current position; on success return the
matched text and the remaining input (greedy, first backtracking success). -/
def tryAt (re : Re) (prev : Option Char) (s : List Char) :
    Option (List Char × List Char) :=
  match reMatch (10 * s.length + 500) re prev s (fun _ rem => some rem) with
  | some rem => some (s.take (s.length - rem.length), rem)
  | none => none

/-- One scan step of a global (`/g`) regex pass: replace matches as JS
`String.prototype.replace` does, scanning left to right over the original
text and resuming after each match. -/
def gReplace (re : Re) (repl : List Char) : Nat → Option Char → List Char → List Char
  | 0, _, s => s
  | _ + 1, _, [] => []
  | f + 1, prev, c :: rest =>
      match tryAt re prev (c :: rest) with
      | some (m, rem) => repl ++ gReplace re repl f m.getLast? rem
      | none => c :: gReplace re repl f (some c) rest

/-- Matches collected by a global (`/g`) pass, as JS `String.prototype.match`
returns them (empty list stands for the `null` result). -/
def gMatches (re : Re) : Nat → Option Char → List Char → List (List Char)
  | 0, _, _ => []
  | _ + 1, _, [] => []
  | f + 1, prev, c :: rest =>
      match tryAt re prev (c :: rest) with
      | some (m, rem) => m :: gMatches re f m.getLast? rem
      | none => gMatches re f (some c) rest

/-- Top-level global replace over a whole text. -/
def jsReplaceAll (re : Re) (repl : List Char) (s : List Char) : List Char :=
  gReplace re repl (s.length + 1) none s

/-- Top-level global match over a whole text. -/
def jsMatchAll (re : Re) (s : List Char) : List (List Char) :=
  gMatches re (s.length + 1) none s

/-! Convenience constructors mirroring the JS regex syntax. -/

def Re.lit (c : Char) : Re := .cls fun d => d = c

/-- Case-insensitive literal character (for the one `/i`-flagged pattern). -/
def Re.litCI (c : Char) : Re := .cls fun d => d.toLower = c

def Re.plus (r : Re) : Re := .seq r (.star r)

def Re.repAtLeast (n : Nat) (r : Re) : Re := .seq (.rep n r) (.star r)

def Re.opt (r : Re) : Re := .alt r .eps

def Re.strLit (s : List Char) : Re := s.foldr (fun c acc => .seq (Re.lit c) acc) .eps

def Re.strLitCI (s : List Char) : Re := s.foldr (fun c acc => .seq (Re.litCI c) acc) .eps

end OpensearchAI

namespace OpensearchAI

/-! ## PIIRedactionService (`src/unnamed/part_010`)

The six built-in patterns and the three opt-in ones, translated from the
JS regex literals in `initializePatterns`. -/

def emailLocalChar (c : Char) : Bool :=
  c.isAlpha || c.isDigit || c = '.' || c = '_' || c = '%' || c = '+' || c = '-'

def emailDomainChar (c : Char) : Bool :=
  c.isAlpha || c.isDigit || c = '.' || c = '-'

/-- The JS class `[A-Z|a-z]` (letters and a literal pipe). -/
def emailTldChar (c : Char) : Bool :=
  c.isAlpha || c = '|'

/-- JS: `\b[A-Za-z0-9._%+-]+@[A-Za-z0-9.-]+\.[A-Z|a-z]{2,}\b` (global). -/
def emailRe : Re :=
  .seq .boundary (.seq (Re.plus (.cls emailLocalChar))
    (.seq (Re.lit '@') (.seq (Re.plus (.cls emailDomainChar))
      (.seq (Re.lit '.') (.seq (Re.repAtLeast 2 (.cls emailTldChar)) .boundary)))))

def bearerTokenChar (c : Char) : Bool :=
  c.isAlpha || c.isDigit || c = '-' || c = '_' || c = '.'

/-- JS: `\b[Bb]earer\s+[A-Za-z0-9\-_\.]+` (global). -/
def bearerRe : Re :=
  .seq .boundary (.seq (.cls fun c => c = 'B' || c = 'b')
    (.seq (Re.strLit "earer".toList)
      (.seq (Re.plus (.cls isJsSpace)) (Re.plus (.cls bearerTokenChar)))))

def keyChar (c : Char) : Bool :=
  c.isAlpha || c.isDigit || c = '-' || c = '_'

def quoteChar (c : Char) : Bool :=
  c = '\'' || c = '"'

/-- JS: `\b(?:api[_-]?key|apikey|token)\s*[:=]\s*['"]?[A-Za-z0-9\-_]{20,}['"]?`
(global, case-insensitive). -/
def apiKeyRe : Re :=
  .seq .boundary (.seq
    (.alt (.seq (Re.strLitCI "api".toList)
        (.seq (Re.opt (.cls fun c => c = '_' || c = '-')) (Re.strLitCI "key".toList)))
      (.alt (Re.strLitCI "apikey".toList) (Re.strLitCI "token".toList)))
    (.seq (.star (.cls isJsSpace)) (.seq (.cls fun c => c = ':' || c = '=')
      (.seq (.star (.cls isJsSpace)) (.seq (Re.opt (.cls quoteChar))
        (.seq (Re.repAtLeast 20 (.cls keyChar)) (Re.opt (.cls quoteChar))))))))

def upperDigitChar (c : Char) : Bool :=
  c.isDigit || c.isUpper

/-- JS: `\bAKIA[0-9A-Z]{16}\b` (global). -/
def awsKeyRe : Re :=
  .seq .boundary (.seq (Re.strLit "AKIA".toList)
    (.seq (.rep 16 (.cls upperDigitChar)) .boundary))

def alnumChar (c : Char) : Bool :=
  c.isAlpha || c.isDigit

/-- JS: `\bghp_[A-Za-z0-9]{36}\b` (global). -/
def githubTokenRe : Re :=
  .seq .boundary (.seq (Re.strLit "ghp_".toList)
    (.seq (.rep 36 (.cls alnumChar)) .boundary))

/-- JS: `\beyJ[A-Za-z0-9\-_]+\.[A-Za-z0-9\-_]+\.[A-Za-z0-9\-_]+` (global). -/
def jwtRe : Re :=
  .seq .boundary (.seq (Re.strLit "eyJ".toList)
    (.seq (Re.plus (.cls keyChar)) (.seq (Re.lit '.')
      (.seq (Re.plus (.cls keyChar)) (.seq (Re.lit '.') (Re.plus (.cls keyChar)))))))

/-- JS: `(?:25[0-5]|2[0-4][0-9]|[01]?[0-9][0-9]?)`. -/
def ipOctetRe : Re :=
  .alt (.seq (Re.strLit "25".toList) (.cls fun c => '0' ≤ c && c ≤ '5'))
    (.alt (.seq (Re.lit '2') (.seq (.cls fun c => '0' ≤ c && c ≤ '4') (.cls Char.isDigit)))
      (.seq (Re.opt (.cls fun c => c = '0' || c = '1'))
        (.seq (.cls Char.isDigit) (Re.opt (.cls Char.isDigit)))))

/-- JS: `\b(?:(?:25[0-5]|...)\.){3}(?:25[0-5]|...)\b` (global). -/
def ipv4Re : Re :=
  .seq .boundary (.seq (.rep 3 (.seq ipOctetRe (Re.lit '.'))) (.seq ipOctetRe .boundary))

def phoneSepChar (c : Char) : Bool :=
  c = '-' || c = '.' || isJsSpace c

/-- JS: `\b(?:\+?1[-.\s]?)?\(?[0-9]{3}\)?[-.\s]?[0-9]{3}[-.\s]?[0-9]{4}\b` (global). -/
def phoneRe : Re :=
  .seq .boundary (.seq
    (Re.opt (.seq (Re.opt (Re.lit '+')) (.seq (Re.lit '1') (Re.opt (.cls phoneSepChar)))))
    (.seq (Re.opt (Re.lit '(')) (.seq (.rep 3 (.cls Char.isDigit))
      (.seq (Re.opt (Re.lit ')')) (.seq (Re.opt (.cls phoneSepChar))
        (.seq (.rep 3 (.cls Char.isDigit)) (.seq (Re.opt (.cls phoneSepChar))
          (.seq (.rep 4 (.cls Char.isDigit)) .boundary))))))))

/-- JS: `\b\d{3}-?\d{2}-?\d{4}\b` (global). -/
def ssnRe : Re :=
  .seq .boundary (.seq (.rep 3 (.cls Char.isDigit))
    (.seq (Re.opt (Re.lit '-')) (.seq (.rep 2 (.cls Char.isDigit))
      (.seq (Re.opt (Re.lit '-')) (.seq (.rep 4 (.cls Char.isDigit)) .boundary)))))

structure RedactionPattern where
  name : List Char
  pattern : Re
  replacement : List Char

structure CustomPattern where
  name : List Char
  pattern : Re
  replacement : Option (List Char)

/-- The `PIIRedactionConfig` type: every optional field is explicit, `none`
standing for an absent (or `undefined`-valued) property. -/
structure PIIRedactionConfig where
  redactEmails : Option Bool := none
  redactTokens : Option Bool := none
  redactIPs : Option Bool := none
  redactPhoneNumbers : Option Bool := none
  redactSSNs : Option Bool := none
  customPatterns : Option (List CustomPattern) := none

/-- JS `String.prototype.toUpperCase` restricted to ASCII. -/
def jsUpper (s : List Char) : List Char :=
  s.map Char.toUpper

/-- The five token patterns pushed by `initializePatterns` when
`redactTokens ?? true` holds, in source order. -/
def tokenPatterns : List RedactionPattern :=
  [⟨"bearer_token".toList, bearerRe, "Bearer [TOKEN]".toList⟩,
   ⟨"api_key".toList, apiKeyRe, "api_key=[TOKEN]".toList⟩,
   ⟨"aws_access_key".toList, awsKeyRe, "[AWS_ACCESS_KEY]".toList⟩,
   ⟨"github_token".toList, githubTokenRe, "[GITHUB_TOKEN]".toList⟩,
   ⟨"jwt_token".toList, jwtRe, "[JWT_TOKEN]".toList⟩]

/-- Method `PIIRedactionService.initializePatterns`: the pattern list built in the
constructor, in push order. -/
def initializePatterns (cfg : PIIRedactionConfig) : List RedactionPattern :=
  (if cfg.redactEmails.getD true then [⟨"email".toList, emailRe, "[EMAIL]".toList⟩] else [])
  ++ (if cfg.redactTokens.getD true then tokenPatterns else [])
  ++ (if cfg.redactIPs.getD false then [⟨"ipv4".toList, ipv4Re, "[IP_ADDRESS]".toList⟩] else [])
  ++ (if cfg.redactPhoneNumbers.getD false then
        [⟨"phone_us".toList, phoneRe, "[PHONE_NUMBER]".toList⟩] else [])
  ++ (if cfg.redactSSNs.getD false then [⟨"ssn".toList, ssnRe, "[SSN]".toList⟩] else [])
  ++ (cfg.customPatterns.getD []).map fun c =>
      ⟨c.name, c.pattern, c.replacement.getD ('['  :: jsUpper c.name ++ [']'])⟩

structure RedactResult where
  redacted : List Char
  found : List (List Char)
deriving DecidableEq

/-- Method `PIIRedactionService.redact`: each pattern is matched against the
ORIGINAL text (for the `found` report) and replaced over the accumulated
redacted text, in pattern order. -/
def redactWith (patterns : List RedactionPattern) (text : List Char) : RedactResult :=
  patterns.foldl
    (fun acc p =>
      let ms := jsMatchAll p.pattern text
      if ms.isEmpty then acc
      else
        { redacted := jsReplaceAll p.pattern p.replacement acc.redacted,
          found := acc.found ++ ms.map fun m => p.name ++ ": ".toList ++ m.take 10 ++ "...".toList })
    { redacted := text, found := [] }

def PIIRedactionService.redact (cfg : PIIRedactionConfig) (text : List Char) : RedactResult :=
  redactWith (initializePatterns cfg) text

/-- Method `PIIRedactionService.isEnabled`: `patterns.length > 0`. -/
def PIIRedactionService.isEnabled (cfg : PIIRedactionConfig) : Bool :=
  (initializePatterns cfg).length > 0

end OpensearchAI

namespace OpensearchAI

/-! ## AiProvider output types (`src/unnamed/part_008`) -/

structure Boosts where
  sources : Option (List (List Char)) := none
  tags : Option (List (List Char)) := none
deriving DecidableEq

/-- Filter hints: a record of key to allowed-value list (values embedded as
strings). -/
abbrev FilterHints := List (List Char × List (List Char))

structure RewriteOutput where
  query : List Char
  intent : Option (List (List Char)) := none
  expanded : Option (List (List Char)) := none
  boosts : Option Boosts := none
  filters : Option FilterHints := none
deriving DecidableEq

/-- Return type of `QueryRewriteService.rewrite`:
`RewriteOutput & { piiFound?: string[] }`. -/
structure RewriteResult extends RewriteOutput where
  piiFound : Option (List (List Char)) := none
deriving DecidableEq

/-! ## QueryRewriteService (`QueryRewriteService.ts`) -/

structure QueryRewriteOptions where
  enabled : Bool
  timeoutMs : Option Nat := none
  redactEmails : Option Bool := none
  redactTokens : Option Bool := none
  maxQueryLen : Option Nat := none
  piiRedaction : Option PIIRedactionConfig := none

/-- The redaction config built in the constructor:
`{redactEmails: options.redactEmails ?? true, redactTokens: options.redactTokens ?? true, ...options.piiRedaction}`.
A field present in `piiRedaction` overrides the two defaults (absent fields
are modelled as `none`). -/
def QueryRewriteService.piiConfig (o : QueryRewriteOptions) : PIIRedactionConfig :=
  let base : PIIRedactionConfig :=
    { redactEmails := some (o.redactEmails.getD true),
      redactTokens := some (o.redactTokens.getD true) }
  match o.piiRedaction with
  | none => base
  | some p =>
      { redactEmails := p.redactEmails.orElse fun _ => base.redactEmails,
        redactTokens := p.redactTokens.orElse fun _ => base.redactTokens,
        redactIPs := p.redactIPs,
        redactPhoneNumbers := p.redactPhoneNumbers,
        redactSSNs := p.redactSSNs,
        customPatterns := p.customPatterns }

/-- Method `QueryRewriteService.truncate`: cut the query to `maxQueryLen ?? 512`. -/
def QueryRewriteService.truncate (o : QueryRewriteOptions) (q : List Char) : List Char :=
  if q.length > o.maxQueryLen.getD 512 then q.take (o.maxQueryLen.getD 512) else q

/-- Outcome of the provider `rewrite` promise, when invoked. -/
inductive ProviderOutcome where
  | resolved (r : RewriteOutput)
  | rejected
deriving DecidableEq

/-- Method `QueryRewriteService.rewrite`.  The async provider call is embedded by
two oracle parameters: `outcome` is how the provider promise settles, and
`timerFirst` says whether the configured timeout timer settles before the
provider promise does (relevant only when `timeoutMs` is truthy and
positive, i.e. the race is actually set up).  The embedding is total, which
reflects the method's contract of resolving (never rejecting): every
failure path lands in the `catch` fallback. -/
def QueryRewriteService.rewrite (o : QueryRewriteOptions) (hasProvider : Bool)
    (outcome : ProviderOutcome) (timerFirst : Bool) (query : List Char) : RewriteResult :=
  if !(o.enabled && hasProvider) then { query := query }
  else
    let rr := PIIRedactionService.redact (QueryRewriteService.piiConfig o)
      (QueryRewriteService.truncate o query)
    let piiFound : Option (List (List Char)) :=
      if rr.found.length > 0 then some rr.found else none
    let fallback : RewriteResult := { query := rr.redacted, piiFound := piiFound }
    if truthyNat o.timeoutMs && timerFirst then fallback
    else
      match outcome with
      | .resolved r =>
          { toRewriteOutput :=
              { r with query := if r.query = [] then rr.redacted else r.query },
            piiFound := piiFound }
      | .rejected => fallback

/-! ## CircuitBreaker (`ErrorHandler`, embedded from `EmbeddingService.ts`
lines 158-228 of the concatenated source) -/

inductive CircuitBreakerState where
  | CLOSED
  | OPEN
  | HALF_OPEN
deriving DecidableEq

structure CircuitBreakerConfig where
  failureThreshold : Nat
  resetTimeoutMs : Nat
  monitoringPeriodMs : Nat
deriving DecidableEq

structure CircuitBreaker where
  state : CircuitBreakerState := .CLOSED
  failureCount : Nat := 0
  lastFailureTime : Nat := 0
  nextAttemptTime : Nat := 0
deriving DecidableEq

/-- The freshly constructed breaker (all fields at their initializers). -/
def CircuitBreaker.init : CircuitBreaker := {}

/-- private `onSuccess`: counter to 0, state to `CLOSED`. -/
def CircuitBreaker.onSuccess (cb : CircuitBreaker) : CircuitBreaker :=
  { cb with failureCount := 0, state := .CLOSED }

/-- private `onFailure`: increment the counter, stamp the failure time, and
open the breaker with a fresh cooldown when the counter reaches the
threshold. -/
def CircuitBreaker.onFailure (cfg : CircuitBreakerConfig) (cb : CircuitBreaker)
    (now : Nat) : CircuitBreaker :=
  let cb1 := { cb with failureCount := cb.failureCount + 1, lastFailureTime := now }
  if cb1.failureCount ≥ cfg.failureThreshold then
    { cb1 with state := .OPEN, nextAttemptTime := now + cfg.resetTimeoutMs }
  else cb1

/-- The optimistic `OPEN → HALF_OPEN` transition taken inside `execute`
once the cooldown has elapsed. -/
def CircuitBreaker.probe (cb : CircuitBreaker) : CircuitBreaker :=
  if cb.state = .OPEN then { cb with state := .HALF_OPEN } else cb

inductive CBOutcome (α : Type) where
  | circuitOpen
  | opFailed
  | ok (a : α)
deriving DecidableEq

/-- Result of one `execute` call: whether the wrapped operation was invoked
at all, what the call returned (or threw), and the breaker afterwards. -/
structure ExecResult (α : Type) where
  invoked : Bool
  result : CBOutcome α
  breaker : CircuitBreaker
deriving DecidableEq

/-- Method `CircuitBreaker.execute(operation)`.  `now` is `Date.now()` at the call;
`op` is how the operation settles if it is invoked.  When the breaker is
`OPEN` and the cooldown has not elapsed, the call throws `circuitOpen`
without invoking the operation. -/
def CircuitBreaker.execute (cfg : CircuitBreakerConfig) (cb : CircuitBreaker)
    (now : Nat) (op : Except Unit α) : ExecResult α :=
  if cb.state = .OPEN ∧ now < cb.nextAttemptTime then ⟨false, .circuitOpen, cb⟩
  else
    match op with
    | .ok a => ⟨true, .ok a, (cb.probe).onSuccess⟩
    | .error _ => ⟨true, .opFailed, CircuitBreaker.onFailure cfg cb.probe now⟩

/-- Fold a sequence of failing calls (at the given times) through `execute`,
tracking whether every call actually invoked the operation. -/
structure FailRun where
  breaker : CircuitBreaker
  allInvoked : Bool
deriving DecidableEq

def runFailures (cfg : CircuitBreakerConfig) (cb : CircuitBreaker)
    (ts : List Nat) : FailRun :=
  ts.foldl
    (fun acc t =>
      let r := CircuitBreaker.execute cfg acc.breaker t (Except.error () : Except Unit Unit)
      ⟨r.breaker, acc.allInvoked && r.invoked⟩)
    ⟨cb, true⟩

end OpensearchAI

namespace OpensearchAI

/-! ## ErrorHandler retry executor (`ErrorHandler`, embedded from
`EmbeddingService.ts` lines 230-282 of the concatenated source) -/

/-- Shape of a JS error value as inspected by `isRetryableError`. -/
structure JsError where
  code : Option (List Char) := none
  status : Option Nat := none
  errType : Option (List Char) := none
deriving DecidableEq

/-- Method `ErrorHandler.isRetryableError`, including the JS truthiness test on
`error.status` (a present status of `0` falls through to the type check). -/
def isRetryableError (e : JsError) : Bool :=
  if e.code = some "ECONNRESET".toList || e.code = some "ENOTFOUND".toList
      || e.code = some "TIMEOUT".toList then
    true
  else if truthyNat e.status then
    [408, 429, 500, 502, 503, 504].contains (e.status.getD 0)
  else if e.errType = some "insufficient_quota".toList
      || e.errType = some "server_error".toList then
    true
  else
    false

structure RetryConfig where
  retries : Option Nat := none
  minTimeout : Option Nat := none
  maxTimeout : Option Nat := none
  factor : Option Nat := none

/-- Modelled from the spec: the external `p-retry` library driven by
`ErrorHandler.withRetry` (the library itself is not part of this
repository).  Section 4.2 of the spec: the executor "invokes `operation`;
on failure, retries up to `retries` additional times with exponential
backoff delay, then fails with the last error if exhausted".  `op n` is
the outcome of the (n+1)-th invocation; the second component of the result
is the number of invocations performed.  Note that `withRetry` hands
`p-retry` no retry predicate, so every failure is retried. -/
def pRetryGo (op : Nat → Except JsError α) :
    Nat → Nat → Except JsError α × Nat
  | 0, attempt => (op attempt, attempt + 1)
  | n + 1, attempt =>
      match op attempt with
      | .ok v => (.ok v, attempt + 1)
      | .error _ => pRetryGo op n (attempt + 1)

def pRetryRun (retries : Nat) (op : Nat → Except JsError α) :
    Except JsError α × Nat :=
  pRetryGo op retries 0

/-- Method `ErrorHandler.withRetry`: fills in the defaults
(`retries ?? 3`, timings irrelevant to outcome/invocation counts) and runs
the operation through `p-retry`. -/
def withRetry (cfg : RetryConfig) (op : Nat → Except JsError α) :
    Except JsError α × Nat :=
  pRetryRun (cfg.retries.getD 3) op

/-! ## SearchItem and the heuristic re-rank provider
(`src/unnamed/part_009`) -/

/-- The slice of the raw `fields` bag that the heuristic scorer consumes:
`fields.tags` when it is an array, and `fields.updated_at` already put
through `Date.parse` (`none` stands for an absent or unparseable value,
`some ts` for a timestamp in epoch milliseconds). -/
structure ItemFields where
  tags : Option (List (List Char)) := none
  updatedAt : Option Int := none
deriving DecidableEq

structure SearchItem where
  title : List Char
  url : Option (List Char) := none
  text : Option (List Char) := none
  score : Option Rat := none
  source : Option (List Char) := none
  fields : Option ItemFields := none
deriving DecidableEq

structure ReRankContext where
  intent : Option (List (List Char)) := none
  boosts : Option Boosts := none
deriving DecidableEq

/-- Helper `textify`: lower-cased `title + ' ' + text + ' ' + tags.join(' ')`. -/
def textify (it : SearchItem) : List Char :=
  jsLower (it.title ++ [' '] ++ it.text.getD [] ++ [' ']
    ++ joinSep [' '] (((it.fields.bind ItemFields.tags)).getD []))

/-- The tags array read off the raw fields bag (empty when absent). -/
def itemTags (it : SearchItem) : List (List Char) :=
  ((it.fields.bind ItemFields.tags)).getD []

/-- Heuristic score of one candidate (before the index epsilon):
backend score, substring bonuses, source/tag boosts, freshness decay. -/
def heuristicScore (freshnessDays : Option Nat) (now : Int)
    (boostSources boostTags : List (List Char)) (q : List Char)
    (it : SearchItem) : Rat :=
  let maxAgeMs : Int := (freshnessDays.getD 30 : Nat) * 24 * 60 * 60 * 1000
  let t := textify it
  let s0 : Rat := it.score.getD 0
  let s1 := if strIncludes t q then s0 + 1 / 2 else s0
  let s2 := if strIncludes (jsLower it.title) q then s1 + 3 / 4 else s1
  let src := jsLower (it.source.getD [])
  let s3 := if src ≠ [] && boostSources.contains src then s2 + 4 / 5 else s2
  let s4 := if (itemTags it).any (fun tg => boostTags.contains (jsLower tg)) then
      s3 + 3 / 5 else s3
  match it.fields.bind ItemFields.updatedAt with
  | none => s4
  | some ts =>
      let age := now - ts
      if 0 ≤ age ∧ age < maxAgeMs then
        s4 + (1 / 2 : Rat) * (1 - (age : Rat) / (maxAgeMs : Rat))
      else s4

structure ScoredItem where
  it : SearchItem
  score : Rat
deriving DecidableEq

/-- One step of the stable descending insertion used to model
`Array.prototype.sort((a, b) => b.score - a.score)` (ES2019 sorts are
stable; on the distinct keys produced by the index epsilon every
comparison-correct sort agrees with this one). -/
def insertDesc (x : ScoredItem) : List ScoredItem → List ScoredItem
  | [] => [x]
  | y :: ys => if y.score < x.score then x :: y :: ys else y :: insertDesc x ys

def sortDesc : List ScoredItem → List ScoredItem
  | [] => []
  | x :: xs => insertDesc x (sortDesc xs)

/-- The `items.map((it, idx) => ...)` pass: each item is scored and the
index-based epsilon `idx * 1e-6` is added. -/
def scoreItems (freshnessDays : Option Nat) (now : Int)
    (boostSources boostTags : List (List Char)) (q : List Char) :
    Nat → List SearchItem → List ScoredItem
  | _, [] => []
  | idx, it :: rest =>
      ScoredItem.mk it
        (heuristicScore freshnessDays now boostSources boostTags q it
          + (idx : Rat) * (1 / 1000000))
      :: scoreItems freshnessDays now boostSources boostTags q (idx + 1) rest

/-- Method `HeuristicReRankProvider.reRank`: score each item (adding the
index-based epsilon `idx * 1e-6`), sort by descending score, and return the
items with their new scores. -/
def heuristicReRank (freshnessDays : Option Nat) (now : Int) (q0 : List Char)
    (items : List SearchItem) (ctx : Option ReRankContext) : List SearchItem :=
  let q := jsLower q0
  let boostSources := (((ctx.bind ReRankContext.boosts).bind Boosts.sources).getD []).map jsLower
  let boostTags := (((ctx.bind ReRankContext.boosts).bind Boosts.tags).getD []).map jsLower
  (sortDesc (scoreItems freshnessDays now boostSources boostTags q 0 items)).map
    fun s => { s.it with score := some s.score }

/-! ## ReRankerService (embedded from `EmbeddingService.ts` lines 123-157
of the concatenated source) -/

structure ReRankerOptions where
  enabled : Bool
  timeoutMs : Option Nat := none
  topK : Option Nat := none

/-- Method `ReRankerService.reRank`.  The provider is embedded as the function it
computes on the head slice; `providerFails` is whether its promise rejects,
and `timerFirst` whether the timeout timer (when configured) settles first.
On any failure the original list is returned unchanged. -/
def ReRankerService.reRank (o : ReRankerOptions)
    (provider : Option (List SearchItem → List SearchItem))
    (providerFails timerFirst : Bool)
    (items : List SearchItem) : List SearchItem :=
  match provider with
  | none => items
  | some f =>
      if !o.enabled then items
      else
        let topK := min (o.topK.getD 50) items.length
        let head := items.take topK
        let tail := items.drop topK
        if providerFails || (truthyNat o.timeoutMs && timerFirst) then items
        else f head ++ tail

end OpensearchAI

namespace OpensearchAI

/-! ## OpenSearchClient (`OpenSearchClient.ts`): search body builder,
response mapping, bulk indexing -/

structure SearchHints where
  expandedTerms : Option (List (List Char)) := none
  boostSources : Option (List (List Char)) := none
  boostTags : Option (List (List Char)) := none
  filterTerms : List (List Char × List (List Char)) := []
  queryVector : Option (List Rat) := none

structure ClientSearchOptions where
  filters : List (List Char × List Char) := []
  page : Option Nat := none
  pageSize : Option Nat := none
  hints : Option SearchHints := none

structure ClientRanking where
  sourceWeight : Option Rat := none
  tagWeight : Option Rat := none

structure ClientConfig where
  indexPrefix : Option (List Char) := none
  ranking : Option ClientRanking := none

/-- The `simple_query_string` clause (its operator and field weights are the
fixed object literal from `search`). -/
structure SimpleQueryString where
  query : List Char
  defaultOperator : List Char := "and".toList
  fields : List (List Char) := ["title^3".toList, "text^1".toList, "tags^2".toList]
deriving DecidableEq

/-- A boosted `term` clause pushed onto `should`. -/
structure TermBoostClause where
  field : List Char
  value : List Char
  boost : Rat
deriving DecidableEq

inductive FilterClause where
  | term (k : List Char) (v : List Char)
  | terms (k : List Char) (vs : List (List Char))
deriving DecidableEq

/-- The `query` part of the request body: either a bare
`simple_query_string` or a `bool` wrapper. -/
inductive QueryClause where
  | sqs (s : SimpleQueryString)
  | boolq (must : Option SimpleQueryString) (should : List TermBoostClause)
      (filter : List FilterClause)
deriving DecidableEq

structure KnnClause where
  field : List Char
  queryVector : List Rat
  k : Nat
  numCandidates : Nat
deriving DecidableEq

structure SearchBody where
  query : QueryClause
  knn : Option KnnClause := none
  fromPos : Option Nat := none
  size : Nat
deriving DecidableEq

/-- The request body constructed by `OpenSearchClient.search` before the
HTTP call (lines 177-236): lexical OR-expansion, boost and filter clauses,
and the k-NN branch when a non-empty query vector hint is present. -/
def buildSearchBody (cfg : ClientConfig) (query : List Char)
    (opts : ClientSearchOptions) : SearchBody :=
  let size := opts.pageSize.getD 20
  let fromPos := (opts.page.getD 0) * size
  let expanded := ((opts.hints.bind SearchHints.expandedTerms)).getD []
  let finalQuery :=
    if expanded.length ≠ 0 then query ++ " OR ".toList ++ joinSep " OR ".toList expanded
    else query
  let mustQuery : SimpleQueryString := { query := finalQuery }
  let sourceWeight := ((cfg.ranking.bind ClientRanking.sourceWeight)).getD 2
  let tagWeight := ((cfg.ranking.bind ClientRanking.tagWeight)).getD (3 / 2)
  let should :=
    (((opts.hints.bind SearchHints.boostSources)).getD []).map
      (fun s => TermBoostClause.mk "source".toList s sourceWeight)
    ++ (((opts.hints.bind SearchHints.boostTags)).getD []).map
      (fun t => TermBoostClause.mk "tags".toList t tagWeight)
  let filter :=
    opts.filters.map (fun kv => FilterClause.term kv.1 kv.2)
    ++ ((opts.hints.map SearchHints.filterTerms).getD []).map
      (fun kv => FilterClause.terms kv.1 kv.2)
  let qv := ((opts.hints.bind SearchHints.queryVector)).getD []
  if qv.length > 0 then
    { query := .boolq none [] filter,
      knn := some ⟨"embedding".toList, qv, size, max 100 (size * 2)⟩,
      size := size }
  else
    { query :=
        if should.length ≠ 0 || filter.length ≠ 0 then .boolq (some mustQuery) should filter
        else .sqs mustQuery,
      fromPos := some fromPos,
      size := size }

/-- The `_source` field bag of one hit, restricted to the keys the mapping
and downstream stages read (`updated_at` already put through `Date.parse`,
as for `ItemFields`). -/
structure RawSource where
  title : Option (List Char) := none
  name : Option (List Char) := none
  location : Option (List Char) := none
  url : Option (List Char) := none
  text : Option (List Char) := none
  tags : Option (List (List Char)) := none
  updatedAt : Option Int := none
deriving DecidableEq

structure RawHit where
  source : Option RawSource := none
  score : Option Rat := none
  index : List Char
  highlightText : Option (List (List Char)) := none
deriving DecidableEq

/-- The `hits.total` field: an object `{value}`, a bare number, or absent. -/
inductive RawTotal where
  | obj (value : Nat)
  | num (n : Nat)
  | absent
deriving DecidableEq

structure RawResponse where
  hits : List RawHit
  total : RawTotal
deriving DecidableEq

/-- The per-hit mapping into a normalized `SearchItem` (`??` is nullish
coalescing, embedded with `Option.orElse`). -/
def mapHit (h : RawHit) : SearchItem :=
  let src := h.source
  { title := (((src.bind RawSource.title).orElse
        (fun _ => src.bind RawSource.name))).getD "Untitled".toList,
    url := (src.bind RawSource.location).orElse (fun _ => src.bind RawSource.url),
    text := (h.highlightText.map (joinSep [' '])).orElse (fun _ => src.bind RawSource.text),
    score := h.score,
    source := some h.index,
    fields := src.map fun s => ⟨s.tags, s.updatedAt⟩ }

def mapTotal (t : RawTotal) (itemsLen : Nat) : Nat :=
  match t with
  | .obj v => v
  | .num n => n
  | .absent => itemsLen

structure SearchResponse where
  items : List SearchItem
  total : Nat
deriving DecidableEq

/-- Method `OpenSearchClient.search` from the point the HTTP request is issued:
`transport` is how the `request` promise settles (a transport error or a
non-2xx status both reject it).  The embedding is total: the `catch` arm
maps every failure to the empty result set, so `search` never rejects. -/
def OpenSearchClient.search (cfg : ClientConfig) (query : List Char)
    (opts : ClientSearchOptions) (transport : Except Unit RawResponse) : SearchResponse :=
  let _ := buildSearchBody cfg query opts
  match transport with
  | .error _ => { items := [], total := 0 }
  | .ok resp =>
      let items := resp.hits.map mapHit
      { items := items, total := mapTotal resp.total items.length }

/-- Type `IndexedDoc` (the `namespace` property is spelled `nmspace`; `updatedAt`
is the `updated_at` stamp added by `bulkIndex`). -/
structure IndexedDoc where
  id : Option (List Char) := none
  title : List Char
  text : Option (List Char) := none
  url : Option (List Char) := none
  tags : List (List Char) := []
  kind : Option (List Char) := none
  nmspace : Option (List Char) := none
  owner : Option (List Char) := none
  system : Option (List Char) := none
  lifecycle : Option (List Char) := none
  source : Option (List Char) := none
  updatedAt : Option (List Char) := none
deriving DecidableEq

/-- One `index` action line of the `_bulk` body. -/
structure BulkAction where
  index : List Char
  id : Option (List Char)
deriving DecidableEq

structure BulkResult where
  indexed : Nat
  lines : List (BulkAction × IndexedDoc)
deriving DecidableEq

/-- Method `OpenSearchClient.bulkIndex`: one action/document line pair per input
document, each document stamped with its source name and the ingestion
timestamp (`nowIso`); returns the count of documents submitted.  The `_id`
is attached only when `d.id` is truthy. -/
def OpenSearchClient.bulkIndex (cfg : ClientConfig) (source : List Char)
    (docs : List IndexedDoc) (nowIso : List Char) : BulkResult :=
  let index := (cfg.indexPrefix.getD "backstage".toList) ++ ['-'] ++ source
  if docs.length = 0 then { indexed := 0, lines := [] }
  else
    { indexed := docs.length,
      lines := docs.map fun d =>
        (⟨index, if truthyStr d.id then d.id else none⟩,
         { d with source := some source, updatedAt := some nowIso }) }

/-! ## CatalogIndexer (`src/unnamed/part_003`) and CatalogIngestion
(`src/unnamed/part_004`) -/

structure EntityMetadata where
  uid : Option (List Char) := none
  name : Option (List Char) := none
  title : Option (List Char) := none
  nmspace : Option (List Char) := none
  description : Option (List Char) := none
  tags : Option (List (List Char)) := none
  viewUrl : Option (List Char) := none
  editUrl : Option (List Char) := none
  owner : Option (List Char) := none
deriving DecidableEq

structure EntitySpec where
  description : Option (List Char) := none
  owner : Option (List Char) := none
  system : Option (List Char) := none
  lifecycle : Option (List Char) := none
deriving DecidableEq

structure Entity where
  kind : Option (List Char) := none
  metadata : Option EntityMetadata := none
  spec : Option EntitySpec := none
deriving DecidableEq

/-- The per-entity document mapping in `CatalogIndexer.index` (`||` is JS
falsy-or, embedded with `jsOrStr`). -/
def CatalogIndexer.entityToDoc (e : Entity) : IndexedDoc :=
  let m := e.metadata.getD {}
  let s := e.spec.getD {}
  { id := jsOrStr m.uid m.name,
    title := (jsOrStr (jsOrStr m.title m.name) (some "untitled".toList)).getD [],
    text := some ((jsOrStr (jsOrStr m.description s.description) (some [])).getD []),
    url := jsOrStr m.viewUrl m.editUrl,
    tags := m.tags.getD [],
    kind := e.kind,
    nmspace := some ((jsOrStr m.nmspace (some "default".toList)).getD []),
    owner := jsOrStr m.owner s.owner,
    system := s.system,
    lifecycle := s.lifecycle }

/-- Method `CatalogIndexer.index`: map the entities and submit them through
`bulkIndex` under source `catalog`; the result is the `indexed` count. -/
def CatalogIndexer.index (cfg : ClientConfig) (nowIso : List Char)
    (entities : List Entity) : Nat :=
  (OpenSearchClient.bulkIndex cfg "catalog".toList
    (entities.map CatalogIndexer.entityToDoc) nowIso).indexed

/-- One page returned by the catalog provider's `fetchEntities`. -/
structure CatalogPage where
  items : List Entity := []
  nextPageCursor : Option (List Char) := none

structure RunOnceResult where
  pages : Nat
  items : Nat
  bulkCalls : Nat
deriving DecidableEq

/-- The do/while loop of `CatalogIngestion.runOnce` over the successive
pages the provider returns.  The loop guard is JS truthiness of the cursor
(`while (after)`), so both `null`/`undefined` and the empty string end the
run.  `bulkCalls` counts the bulk-index submissions (one per non-empty
page).  An exhausted page list stands for a provider trace that has ended. -/
def CatalogIngestion.runOnceGo (cfg : ClientConfig) (nowIso : List Char) :
    List CatalogPage → Nat → Nat → Nat → RunOnceResult
  | [], pages, total, calls => ⟨pages, total, calls⟩
  | p :: rest, pages, total, calls =>
      let doCall := p.items.length > 0
      let total2 := if doCall then total + CatalogIndexer.index cfg nowIso p.items else total
      let calls2 := if doCall then calls + 1 else calls
      if truthyStr p.nextPageCursor then
        CatalogIngestion.runOnceGo cfg nowIso rest (pages + 1) total2 calls2
      else ⟨pages + 1, total2, calls2⟩

/-- Method `CatalogIngestion.runOnce() → {pages, items}` (with the bulk-call count
carried alongside). -/
def CatalogIngestion.runOnce (cfg : ClientConfig) (nowIso : List Char)
    (pagesSeq : List CatalogPage) : RunOnceResult :=
  CatalogIngestion.runOnceGo cfg nowIso pagesSeq 0 0 0

end OpensearchAI

namespace OpensearchAI

/-- The `simple_query_string` text of a query clause, if one is present
(either bare or as the `must` of a `bool` query). -/
def QueryClause.sqsText : QueryClause → Option (List Char)
  | .sqs s => some s.query
  | .boolq (some s) _ _ => some s.query
  | .boolq none _ _ => none

end OpensearchAI

namespace OpensearchAI

set_option maxRecDepth 4000 in
/-- C1 counterexample: with the default `maxQueryLen` of 512 and a
513-character query, the disabled-path output query is the raw input, not
its truncation. -/
theorem rewrite_disabled_not_truncated :
    ¬ ((QueryRewriteService.rewrite { enabled := false } false .rejected false
          (List.replicate 513 'a')).query
        = QueryRewriteService.truncate { enabled := false } (List.replicate 513 'a')) := by
  intro h
  have hlen := congrArg List.length h
  simp [QueryRewriteService.rewrite, QueryRewriteService.truncate] at hlen

/-- C1 (amended): if the rewrite stage is disabled or no provider is
configured, `rewrite` returns the input query unchanged — no truncation is
applied on this path — with no intent, expansion, boost, or filter hints. -/
theorem rewrite_disabled_returns_input (o : QueryRewriteOptions) (hasProvider : Bool)
    (outcome : ProviderOutcome) (timerFirst : Bool) (q : List Char)
    (h : o.enabled = false ∨ hasProvider = false) :
    QueryRewriteService.rewrite o hasProvider outcome timerFirst q = { query := q } := by
  rcases h with h | h <;> simp [QueryRewriteService.rewrite, h]

theorem rewrite_disabled_returns_input_witness :
    QueryRewriteService.rewrite { enabled := false } true .rejected false "api docs".toList
      = { query := "api docs".toList } :=
  rewrite_disabled_returns_input { enabled := false } true .rejected false
    "api docs".toList (Or.inl rfl)

/-- C4: with the stage enabled and a provider configured, if the provider
promise rejects, or the configured timeout fires before the provider
settles, `rewrite` resolves with the redacted+truncated input as the query
and no intent, expansion, boost, or filter hints (the embedding is total,
so no failure propagates). -/
theorem rewrite_failure_falls_back (o : QueryRewriteOptions) (outcome : ProviderOutcome)
    (timerFirst : Bool) (q : List Char)
    (he : o.enabled = true)
    (hfail : outcome = .rejected ∨ (truthyNat o.timeoutMs = true ∧ timerFirst = true)) :
    QueryRewriteService.rewrite o true outcome timerFirst q
      = { query := (PIIRedactionService.redact (QueryRewriteService.piiConfig o)
            (QueryRewriteService.truncate o q)).redacted,
          piiFound :=
            if (PIIRedactionService.redact (QueryRewriteService.piiConfig o)
                  (QueryRewriteService.truncate o q)).found.length > 0
            then some (PIIRedactionService.redact (QueryRewriteService.piiConfig o)
                  (QueryRewriteService.truncate o q)).found
            else none } := by
  rcases hfail with h | ⟨h1, h2⟩
  · subst h
    by_cases ht : (truthyNat o.timeoutMs && timerFirst) = true <;>
      simp [QueryRewriteService.rewrite, he, ht]
  · subst h2
    simp [QueryRewriteService.rewrite, he, h1]

theorem rewrite_failure_falls_back_witness :
    QueryRewriteService.rewrite { enabled := true } true .rejected false "hello".toList
      = { query := "hello".toList } := by
  have h := rewrite_failure_falls_back { enabled := true } .rejected false "hello".toList
    rfl (Or.inl rfl)
  rw [h]
  decide

/-- C8: when the underlying search-backend request fails (transport error
or non-2xx response both reject the request promise), `search` resolves
with the empty result set and never rejects (the embedding is total). -/
theorem search_transport_failure_empty (cfg : ClientConfig) (q : List Char)
    (opts : ClientSearchOptions) :
    OpenSearchClient.search cfg q opts (.error ()) = { items := [], total := 0 } := rfl

end OpensearchAI

namespace OpensearchAI

/-- Unfolding lemma: a failing call that invokes the operation advances the
fold one step. -/
theorem runFailures_cons (cfg : CircuitBreakerConfig) (cb : CircuitBreaker)
    (t : Nat) (l : List Nat)
    (h : (CircuitBreaker.execute cfg cb t (Except.error () : Except Unit Unit)).invoked = true) :
    runFailures cfg cb (t :: l)
      = runFailures cfg
          (CircuitBreaker.execute cfg cb t (Except.error () : Except Unit Unit)).breaker l := by
  unfold runFailures
  simp [h]

/-- From `CLOSED` with `c` prior failures and `c + ts.length + 1` equal to
the threshold, the listed failing calls are all invoked and leave the
breaker `OPEN` at the threshold with the cooldown anchored at the last
failure time. -/
theorem runFailures_opens (cfg : CircuitBreakerConfig) :
    ∀ (ts : List Nat) (tl : Nat) (cb : CircuitBreaker),
      cb.state = .CLOSED →
      cb.failureCount + ts.length + 1 = cfg.failureThreshold →
      runFailures cfg cb (ts ++ [tl])
        = ⟨{ state := .OPEN, failureCount := cfg.failureThreshold,
             lastFailureTime := tl, nextAttemptTime := tl + cfg.resetTimeoutMs }, true⟩ := by
  intro ts
  induction ts with
  | nil =>
      intro tl cb hst hc
      simp at hc
      simp [runFailures, CircuitBreaker.execute, CircuitBreaker.probe, hst,
        CircuitBreaker.onFailure]
      rw [if_pos (by omega)]
      rw [hc]
  | cons t ts ih =>
      intro tl cb hst hc
      have hinv : (CircuitBreaker.execute cfg cb t (Except.error () : Except Unit Unit)).invoked
          = true := by
        simp [CircuitBreaker.execute, hst]
      rw [List.cons_append, runFailures_cons cfg cb t (ts ++ [tl]) hinv]
      have hlt : ¬ (cb.failureCount + 1 ≥ cfg.failureThreshold) := by
        simp at hc
        omega
      have hbr : (CircuitBreaker.execute cfg cb t (Except.error () : Except Unit Unit)).breaker
          = { cb with failureCount := cb.failureCount + 1, lastFailureTime := t } := by
        simp [CircuitBreaker.execute, hst, CircuitBreaker.probe, CircuitBreaker.onFailure, hlt]
      rw [hbr]
      apply ih
      · exact hst
      · simp at hc ⊢
        omega

end OpensearchAI

namespace OpensearchAI

/-- C2: the circuit breaker state machine.  Starting `CLOSED`, after
exactly `failureThreshold` consecutive failed (and invoked) calls the
breaker is `OPEN` with `failureCount` equal to the threshold; a call
before `resetTimeoutMs` has elapsed fails with `circuitOpen` without
invoking the operation and leaves the breaker unchanged; once the cooldown
has elapsed the next call is allowed through — a success resets to
`CLOSED` with `failureCount` 0, a failure returns to `OPEN` with a fresh
cooldown window. -/
theorem circuit_breaker_state_machine (cfg : CircuitBreakerConfig)
    (ts : List Nat) (tl : Nat) (hlen : ts.length + 1 = cfg.failureThreshold)
    (tEarly tLate : Nat)
    (hEarly : tEarly < tl + cfg.resetTimeoutMs)
    (hLate : tl + cfg.resetTimeoutMs ≤ tLate) :
    CircuitBreaker.init.state = .CLOSED ∧
    CircuitBreaker.init.failureCount = 0 ∧
    runFailures cfg CircuitBreaker.init (ts ++ [tl])
      = ⟨{ state := .OPEN, failureCount := cfg.failureThreshold,
           lastFailureTime := tl, nextAttemptTime := tl + cfg.resetTimeoutMs }, true⟩ ∧
    (∀ op : Except Unit Unit,
      CircuitBreaker.execute cfg
          { state := .OPEN, failureCount := cfg.failureThreshold,
            lastFailureTime := tl, nextAttemptTime := tl + cfg.resetTimeoutMs }
          tEarly op
        = ⟨false, .circuitOpen,
           { state := .OPEN, failureCount := cfg.failureThreshold,
             lastFailureTime := tl, nextAttemptTime := tl + cfg.resetTimeoutMs }⟩) ∧
    (∀ op : Except Unit Unit,
      (CircuitBreaker.execute cfg
          { state := .OPEN, failureCount := cfg.failureThreshold,
            lastFailureTime := tl, nextAttemptTime := tl + cfg.resetTimeoutMs }
          tLate op).invoked = true) ∧
    (CircuitBreaker.execute cfg
        { state := .OPEN, failureCount := cfg.failureThreshold,
          lastFailureTime := tl, nextAttemptTime := tl + cfg.resetTimeoutMs }
        tLate (Except.ok ())).breaker
      = { state := .CLOSED, failureCount := 0,
          lastFailureTime := tl, nextAttemptTime := tl + cfg.resetTimeoutMs } ∧
    (CircuitBreaker.execute cfg
        { state := .OPEN, failureCount := cfg.failureThreshold,
          lastFailureTime := tl, nextAttemptTime := tl + cfg.resetTimeoutMs }
        tLate (Except.error () : Except Unit Unit)).breaker
      = { state := .OPEN, failureCount := cfg.failureThreshold + 1,
          lastFailureTime := tLate, nextAttemptTime := tLate + cfg.resetTimeoutMs } := by
  refine ⟨rfl, rfl, ?_, ?_, ?_, ?_, ?_⟩
  · refine runFailures_opens cfg ts tl CircuitBreaker.init rfl ?_
    simp [CircuitBreaker.init]
    omega
  · intro op
    simp [CircuitBreaker.execute, hEarly]
  · intro op
    have hnot : ¬ (tLate < tl + cfg.resetTimeoutMs) := by omega
    cases op <;> simp [CircuitBreaker.execute, hnot]
  · have hnot : ¬ (tLate < tl + cfg.resetTimeoutMs) := by omega
    simp [CircuitBreaker.execute, hnot, CircuitBreaker.probe, CircuitBreaker.onSuccess]
  · have hnot : ¬ (tLate < tl + cfg.resetTimeoutMs) := by omega
    simp [CircuitBreaker.execute, hnot, CircuitBreaker.probe, CircuitBreaker.onFailure]

theorem circuit_breaker_state_machine_witness :
    runFailures ⟨3, 100, 5⟩ CircuitBreaker.init [0, 1, 2]
      = ⟨{ state := .OPEN, failureCount := 3,
           lastFailureTime := 2, nextAttemptTime := 102 }, true⟩ :=
  (circuit_breaker_state_machine ⟨3, 100, 5⟩ [0, 1] 2 (by decide) 50 200
    (by decide) (by decide)).2.2.1

end OpensearchAI

namespace OpensearchAI

/-- Always-failing operations drive `pRetryGo` to exhaustion: the last
error surfaces and the operation is invoked once per remaining attempt. -/
theorem pRetryGo_always_fails (es : Nat → JsError) :
    ∀ (n attempt : Nat),
      pRetryGo (fun k => (Except.error (es k) : Except JsError Unit)) n attempt
        = (.error (es (attempt + n)), attempt + n + 1) := by
  intro n
  induction n with
  | zero => intro attempt; simp [pRetryGo]
  | succ n ih =>
      intro attempt
      have hadd : attempt + 1 + n = attempt + (n + 1) := by omega
      simp only [pRetryGo]
      rw [ih (attempt + 1), hadd]

/-- C3 counterexample: an operation that always fails with HTTP 400 — a
non-retryable error per `isRetryableError` — is invoked 4 times (the
default budget of 3 retries plus the initial attempt) by `withRetry`, not
once: the retry budget is consumed even for non-retryable errors. -/
theorem withRetry_nonretryable_consumed :
    isRetryableError { status := some 400 } = false ∧
    (withRetry {} fun _ => (Except.error { status := some 400 } : Except JsError Unit)).2 = 4 ∧
    (withRetry {} fun _ => (Except.error { status := some 400 } : Except JsError Unit)).2 ≠ 1 := by
  refine ⟨by decide, by decide, by decide⟩

/-- C3 (amended): `isRetryableError` classifies a plain 4xx status other
than 408/429 as non-retryable, but `withRetry` hands `p-retry` no retry
predicate and never consults the classifier: every failing operation is
retried — an always-failing operation is invoked `retries + 1` times and
`withRetry` fails with the last error. -/
theorem withRetry_retries_all_failures (r : Nat) (es : Nat → JsError) :
    (∀ s, 400 ≤ s → s < 500 → s ≠ 408 → s ≠ 429 →
        isRetryableError { status := some s } = false) ∧
    withRetry { retries := some r }
        (fun n => (Except.error (es n) : Except JsError Unit))
      = (.error (es r), r + 1) := by
  constructor
  · intro s h1 h2 h3 h4
    simp [isRetryableError, truthyNat]
    omega
  · have h := pRetryGo_always_fails es r 0
    simpa [withRetry, pRetryRun] using h

theorem withRetry_retries_all_failures_witness :
    isRetryableError { status := some 404 } = false ∧
    withRetry { retries := some 2 }
        (fun _ => (Except.error { status := some 404 } : Except JsError Unit))
      = (.error { status := some 404 }, 3) :=
  ⟨(withRetry_retries_all_failures 2 fun _ => { status := some 404 }).1 404
      (by decide) (by decide) (by decide) (by decide),
   (withRetry_retries_all_failures 2 fun _ => { status := some 404 }).2⟩

end OpensearchAI

namespace OpensearchAI

/-- C5: two candidates with EQUAL heuristic scores (ignoring the epsilon).
The index epsilon `idx * 1e-6` is ADDED to the score and the sort is
descending, so the LATER input item gets the larger key and is returned
first: the tie is broken against original input order, contradicting both
the specification and the code's own `Stable tie-breaker using original
order` comment. -/
theorem heuristic_rerank_reverses_ties :
    heuristicReRank none 0 ['z', 'z']
        [{ title := ['a'], score := some 1 }, { title := ['b'], score := some 1 }]
        none
      = [{ title := ['b'], score := some (1 + 1 / 1000000) },
         { title := ['a'], score := some 1 }] := by
  have hq : jsLower ['z', 'z'] = ['z', 'z'] := by decide
  have hA : heuristicScore none 0 [] [] ['z', 'z']
      { title := ['a'], score := some 1 } = 1 := by decide
  have hB : heuristicScore none 0 [] [] ['z', 'z']
      { title := ['b'], score := some 1 } = 1 := by decide
  simp [heuristicReRank, scoreItems, hq, hA, hB, sortDesc, insertDesc]
  norm_num

end OpensearchAI

namespace OpensearchAI

/-- C6: with the stage enabled and the provider succeeding in time, an item
list longer than `topK` (default 50) is split: only the first `topK` items
are handed to the provider, and the output is the provider's result with
the remaining items appended after it unchanged — the tail of the output
is exactly `items.drop topK` in its original order. -/
theorem rerank_splits_at_topK (o : ReRankerOptions)
    (f : List SearchItem → List SearchItem) (items : List SearchItem)
    (he : o.enabled = true) (hlen : o.topK.getD 50 < items.length) :
    ReRankerService.reRank o (some f) false false items
      = f (items.take (o.topK.getD 50)) ++ items.drop (o.topK.getD 50) ∧
    (f (items.take (o.topK.getD 50)) ++ items.drop (o.topK.getD 50)).drop
        (f (items.take (o.topK.getD 50))).length
      = items.drop (o.topK.getD 50) := by
  constructor
  · simp [ReRankerService.reRank, he, Nat.min_eq_left (Nat.le_of_lt hlen)]
  · exact List.drop_left _ _

theorem rerank_splits_at_topK_witness :
    ReRankerService.reRank { enabled := true, topK := some 2 } (some List.reverse)
        false false
        [{ title := ['x'] }, { title := ['y'] }, { title := ['z'] }]
      = [{ title := ['y'] }, { title := ['x'] }, { title := ['z'] }] := by
  have h := (rerank_splits_at_topK { enabled := true, topK := some 2 } List.reverse
    [{ title := ['x'] }, { title := ['y'] }, { title := ['z'] }] rfl (by decide)).1
  rw [h]
  decide

/-- Both lexical branches expose the same `simple_query_string` text. -/
theorem sqsText_ite (c : Prop) [Decidable c] (s : SimpleQueryString)
    (sh : List TermBoostClause) (fl : List FilterClause) :
    (if c then QueryClause.boolq (some s) sh fl else QueryClause.sqs s).sqsText
      = some s.query := by
  by_cases h : c <;> simp [h, QueryClause.sqsText]

/-- C7: the search request builder.  (a) With a non-empty expansion-term
hint and no query vector, the body carries a lexical `simple_query_string`
whose text ORs the original query with every expansion term, in order.
(b) With a non-empty query-vector hint, the body is a k-NN request — its
`query` part holds no `simple_query_string` — whose `num_candidates` is
exactly `max 100 (2 × pageSize)`, hence at least that. -/
theorem search_body_expansion_and_knn (cfg : ClientConfig) (q : List Char)
    (opts : ClientSearchOptions) :
    (∀ ts, ((opts.hints.bind SearchHints.expandedTerms)).getD [] = ts → ts ≠ [] →
      ((opts.hints.bind SearchHints.queryVector)).getD [] = [] →
      (buildSearchBody cfg q opts).query.sqsText
        = some (q ++ " OR ".toList ++ joinSep " OR ".toList ts)) ∧
    (∀ v, ((opts.hints.bind SearchHints.queryVector)).getD [] = v → v ≠ [] →
      (buildSearchBody cfg q opts).knn
        = some ⟨"embedding".toList, v, opts.pageSize.getD 20,
            max 100 ((opts.pageSize.getD 20) * 2)⟩ ∧
      (buildSearchBody cfg q opts).query.sqsText = none ∧
      ∀ kc, (buildSearchBody cfg q opts).knn = some kc →
        max 100 (2 * (opts.pageSize.getD 20)) ≤ kc.numCandidates) := by
  constructor
  · intro ts hts hne hv
    have hlen : ts.length ≠ 0 := fun h => hne (List.eq_nil_of_length_eq_zero h)
    simp [buildSearchBody, hts, hv, hlen, sqsText_ite]
  · intro v hv hne
    have hlen : 0 < v.length := by
      cases v with
      | nil => exact absurd rfl hne
      | cons a l => simp
    refine ⟨?_, ?_, ?_⟩
    · simp [buildSearchBody, hv, hlen]
    · simp [buildSearchBody, hv, hlen, QueryClause.sqsText]
    · intro kc hkc
      simp [buildSearchBody, hv, hlen] at hkc
      rw [← hkc]
      simp [Nat.mul_comm]

end OpensearchAI

namespace OpensearchAI

theorem search_body_expansion_and_knn_witness :
    (buildSearchBody {} "api docs".toList
        { hints := some { expandedTerms := some ["openapi".toList, "rest".toList] } }).query.sqsText
      = some "api docs OR openapi OR rest".toList ∧
    (buildSearchBody {} "api docs".toList
        { hints := some { queryVector := some [1] } }).knn
      = some ⟨"embedding".toList, [1], 20, 100⟩ := by
  constructor
  · have h := (search_body_expansion_and_knn {} "api docs".toList
      { hints := some { expandedTerms := some ["openapi".toList, "rest".toList] } }).1
      ["openapi".toList, "rest".toList] rfl (by decide) rfl
    rw [h]
    decide
  · have h := ((search_body_expansion_and_knn {} "api docs".toList
      { hints := some { queryVector := some [1] } }).2 [1] rfl (by decide)).1
    rw [h]
    decide

/-- Count behaviour of `bulkIndex`, without materializing the line pairs. -/
theorem bulkIndex_indexed (cfg : ClientConfig) (src : List Char)
    (docs : List IndexedDoc) (n2 : List Char) :
    (OpenSearchClient.bulkIndex cfg src docs n2).indexed
      = if docs.length = 0 then 0 else docs.length := by
  by_cases h : docs.length = 0 <;> simp [OpenSearchClient.bulkIndex, h]

/-- Count behaviour of `CatalogIndexer.index`: one document per entity. -/
theorem catalogIndex_count (cfg : ClientConfig) (nowIso : List Char) (es : List Entity) :
    CatalogIndexer.index cfg nowIso es = if es.length = 0 then 0 else es.length := by
  simp [CatalogIndexer.index, bulkIndex_indexed]

/-- With an empty-string first cursor the loop stops after one page. -/
theorem runOnce_falsy_cursor (cfg : ClientConfig) (nowIso : List Char)
    (e1 e2 : List Entity) (h1 : e1.length = 500) :
    CatalogIngestion.runOnce cfg nowIso
        [{ items := e1, nextPageCursor := some [] },
         { items := e2, nextPageCursor := none }]
      = ⟨1, 500, 1⟩ := by
  simp only [CatalogIngestion.runOnce, CatalogIngestion.runOnceGo,
    catalogIndex_count, h1]
  simp [truthyStr]

/-- C9 counterexample: a first page of 500 items with the NON-NULL cursor
`""` — the loop guard `while (after)` is JS truthiness, so the empty-string
cursor ends the run after one page: the second page is never fetched,
`runOnce` reports 1 page / 500 items, and bulk-index is called once, not
twice. -/
theorem runOnce_empty_string_cursor :
    CatalogIngestion.runOnce {} "2025-01-01T00:00:00.000Z".toList
        [{ items := List.replicate 500 {}, nextPageCursor := some [] },
         { items := List.replicate 10 {}, nextPageCursor := none }]
      = ⟨1, 500, 1⟩ ∧
    CatalogIngestion.runOnce {} "2025-01-01T00:00:00.000Z".toList
        [{ items := List.replicate 500 {}, nextPageCursor := some [] },
         { items := List.replicate 10 {}, nextPageCursor := none }]
      ≠ ⟨2, 510, 2⟩ := by
  have h := runOnce_falsy_cursor {} "2025-01-01T00:00:00.000Z".toList
    (List.replicate 500 {}) (List.replicate 10 {}) (by simp only [List.length_replicate])
  exact ⟨h, by rw [h]; decide⟩

/-- C9 (amended): for a provider returning a first page of 500 items with a
non-null, NON-EMPTY cursor and a second page of 10 items with a null
cursor, `runOnce` reports 2 pages and 510 items and invokes bulk-index
exactly twice; and `bulkIndex` returns the count of documents submitted.
(The only change forced by the counterexample: the empty-string cursor,
though non-null, ends the loop, so the first cursor must be non-empty.) -/
theorem runOnce_two_pages (cfg : ClientConfig) (nowIso : List Char)
    (e1 e2 : List Entity) (c : List Char)
    (h1 : e1.length = 500) (h2 : e2.length = 10) (hc : c ≠ []) :
    CatalogIngestion.runOnce cfg nowIso
        [{ items := e1, nextPageCursor := some c },
         { items := e2, nextPageCursor := none }]
      = ⟨2, 510, 2⟩ ∧
    ∀ (cfg2 : ClientConfig) (src : List Char) (docs : List IndexedDoc) (n2 : List Char),
      docs ≠ [] → (OpenSearchClient.bulkIndex cfg2 src docs n2).indexed = docs.length := by
  constructor
  · simp only [CatalogIngestion.runOnce, CatalogIngestion.runOnceGo,
      catalogIndex_count, h1, h2]
    simp [truthyStr, hc]
  · intro cfg2 src docs n2 hd
    rw [bulkIndex_indexed]
    simp [List.length_eq_zero, hd]

theorem runOnce_two_pages_witness :
    CatalogIngestion.runOnce {} "2025-01-01T00:00:00.000Z".toList
        [{ items := List.replicate 500 {}, nextPageCursor := some "cursor-1".toList },
         { items := List.replicate 10 {}, nextPageCursor := none }]
      = ⟨2, 510, 2⟩ :=
  (runOnce_two_pages {} "2025-01-01T00:00:00.000Z".toList
    (List.replicate 500 {}) (List.replicate 10 {}) "cursor-1".toList
    (by simp only [List.length_replicate]) (by simp only [List.length_replicate])
    (by decide)).1

end OpensearchAI

namespace OpensearchAI

/-- C10: PII redaction is opt-out.  Any configuration leaving
`redactEmails` and `redactTokens` unset enables the email pattern and all
five token patterns (they head the pattern list, in push order) and
`isEnabled()` is true; the email pattern is present whenever
`redactEmails` is not the explicit `false` and absent under the explicit
`false` (likewise for the token patterns, `jwt_token` shown as the
representative); with both explicitly `false` (and nothing else enabled)
the pattern list is empty and `isEnabled()` is false; and `redact()`
replaces every email in the input with `[EMAIL]`, as evaluated on an input
carrying two emails. -/
theorem pii_redaction_opt_out (cfg : PIIRedactionConfig)
    (he : cfg.redactEmails = none) (ht : cfg.redactTokens = none) :
    ((initializePatterns cfg).map RedactionPattern.name).take 6
      = ["email".toList, "bearer_token".toList, "api_key".toList,
         "aws_access_key".toList, "github_token".toList, "jwt_token".toList] ∧
    PIIRedactionService.isEnabled cfg = true ∧
    (∀ e t : Option Bool, e ≠ some false →
      "email".toList ∈ (initializePatterns
        { redactEmails := e, redactTokens := t }).map RedactionPattern.name) ∧
    (∀ t : Option Bool,
      "email".toList ∉ (initializePatterns
        { redactEmails := some false, redactTokens := t }).map RedactionPattern.name) ∧
    (∀ e t : Option Bool, t ≠ some false →
      "jwt_token".toList ∈ (initializePatterns
        { redactEmails := e, redactTokens := t }).map RedactionPattern.name) ∧
    initializePatterns { redactEmails := some false, redactTokens := some false } = [] ∧
    PIIRedactionService.isEnabled
        { redactEmails := some false, redactTokens := some false } = false ∧
    (PIIRedactionService.redact {} "a@b.co and c@d.org end".toList).redacted
      = "[EMAIL] and [EMAIL] end".toList ∧
    (PIIRedactionService.redact {} "a@b.co and c@d.org end".toList).found
      = ["email: a@b.co...".toList, "email: c@d.org...".toList] := by
  refine ⟨?_, ?_, ?_, ?_, ?_, by simp [initializePatterns], by decide, by decide, by decide⟩
  · simp [initializePatterns, he, ht, tokenPatterns]
  · simp [PIIRedactionService.isEnabled, initializePatterns, he, ht]
  · intro e t hef
    have hge : e.getD true = true := by
      cases e with
      | none => rfl
      | some b =>
          cases b with
          | false => exact absurd rfl hef
          | true => rfl
    simp [initializePatterns, hge]
  · intro t
    simp [initializePatterns, tokenPatterns]
    intro x _ hx
    rcases hx with rfl | rfl | rfl | rfl | rfl <;> decide
  · intro e t htf
    have hgt : t.getD true = true := by
      cases t with
      | none => rfl
      | some b =>
          cases b with
          | false => exact absurd rfl htf
          | true => rfl
    simp [initializePatterns, hgt, tokenPatterns]

theorem pii_redaction_opt_out_witness :
    ((initializePatterns {}).map RedactionPattern.name).take 6
      = ["email".toList, "bearer_token".toList, "api_key".toList,
         "aws_access_key".toList, "github_token".toList, "jwt_token".toList] ∧
    PIIRedactionService.isEnabled {} = true :=
  ⟨(pii_redaction_opt_out {} rfl rfl).1, (pii_redaction_opt_out {} rfl rfl).2.1⟩

end OpensearchAI
